import Mathlib

/-!
Shallow embedding of the `PhantomEnvironment` browser-session controller of
the goose-phantom-environment repository (sources: `src/lib/PhantomEnvironment.js`
and the historical variant `src/unnamed/part_001`), together with proofs about
its proxy rotation, navigation retry, event dispatch, redirect tracking and
error handling.

Modelling conventions:
- JavaScript objects become structures; `null`/`undefined` becomes `Option`.
- A thrown `Error` becomes the `Except.error` branch carrying the message.
- `lodash.sample` (a uniformly random pick) is abstracted as an arbitrary
  function `pick : List Proxy → Option Proxy` that returns `none` exactly on
  the empty list and otherwise some element of the list; theorems quantify
  over every such function.
- `String.prototype.match(pattern)` (a regex match) is abstracted as a
  function `m : String → String → Bool`; the concrete instantiation
  `urlMatch` implements substring containment, which agrees with the JS
  behaviour on the metacharacter-free patterns used in the examples.
-/

namespace PhantomEnv

/-- Proxy descriptor, from the `Proxy` typedef: `{host, port, username?, password?}`. -/
structure Proxy where
  host : String
  port : Nat
  username : Option String
  password : Option String
deriving DecidableEq, Repr

/-- Comparison used by `_removeUnavailableProxy`:
`item.host === current.host && item.port === current.port`. -/
def sameKey (p c : Proxy) : Bool :=
  p.host == c.host && p.port == c.port

/-- De-duplication identity of a proxy, `(host, port)`. -/
def proxyKey (p : Proxy) : String × Nat := (p.host, p.port)

/-- The `this._proxy` field: `null`, a single proxy object, or an array. -/
inductive ProxyConfig
  | noProxy
  | single (p : Proxy)
  | list (l : List Proxy)
deriving DecidableEq, Repr

/-- Error object produced by `createProxyError`. -/
structure ProxyErr where
  msg : String
  proxyIndicator : String
  proxyLevel : String
deriving DecidableEq, Repr

/-- Proxy indicator record (`type` plus the payload fields `url` for
redirect indicators and `code` for response-code indicators). -/
structure ProxyIndicator where
  type : String
  level : Option String
  url : String
  code : Nat
deriving DecidableEq, Repr

/-- Translation of `createProxyError(proxyIndicator)`: the unsupported-type
branch throws, modelled by `Except.error`. -/
def createProxyError (pi : ProxyIndicator) : Except String ProxyErr :=
  if pi.type == "redirect" then
    .ok ⟨"Proxy matched redirect", pi.type, pi.level.getD "medium"⟩
  else if pi.type == "responseCode" then
    .ok ⟨"Proxy matched response code", pi.type, pi.level.getD "medium"⟩
  else if pi.type == "captcha" then
    .ok ⟨"Captcha handled", pi.type, pi.level.getD "medium"⟩
  else
    .error "Unsupported proxyIndicator"

/-- Translation of `getProxyIndicators(type)`. -/
def getProxyIndicators (inds : List ProxyIndicator) (t : String) : List ProxyIndicator :=
  inds.filter (fun item => item.type == t)

/-- Mutable session state of a `PhantomEnvironment` instance: the fields of
`this` that the claims are about (`_url`, `_proxy`, `_proxyCurrent`,
`_proxyErrors`, `_redirectUrls`). -/
structure EnvState where
  url : String
  proxy : ProxyConfig
  proxyCurrent : Option Proxy
  proxyErrors : List ProxyErr
  redirectUrls : List String
deriving DecidableEq, Repr

/-- Translation of `_removeUnavailableProxy()`: splice the first list entry
matching the current proxy by host and port out of `this._proxy`.  Returns
the updated list (the JS return value, the removed proxy, is ignored by its
only caller). -/
def removeUnavailableProxy (l : List Proxy) (cur : Option Proxy) : List Proxy :=
  match cur with
  | none => l
  | some c =>
    if l.isEmpty then l
    else
      match List.findIdx? (fun item => sameKey item c) l with
      | some index => l.eraseIdx index
      | none => l

/-- Result of `_rotateProxy()`: either the value the promise resolves with
(`none` models the JS `null`) or the message of the thrown error, together
with the session state after the call. -/
structure RotateResult where
  outcome : Except String (Option Proxy)
  state : EnvState

/-- Translation of `_rotateProxy()`.  `pick` stands for `lodash.sample`,
`rotator` for the optional `proxyRotator` option.  Note the order of
operations in the list branch, taken from the source: evict the current
proxy, compute the replacement, unconditionally reset `this._proxyErrors`,
and only then test whether a replacement was found. -/
def rotateProxy (pick : List Proxy → Option Proxy)
    (rotator : Option (List Proxy → Option Proxy → Option Proxy))
    (st : EnvState) : RotateResult :=
  match st.proxy with
  | .noProxy => ⟨.ok none, st⟩
  | .single p => ⟨.ok (some p), { st with proxyCurrent := some p }⟩
  | .list l =>
    let l2 := removeUnavailableProxy l st.proxyCurrent
    let foundProxy :=
      match rotator with
      | some f => f l2 st.proxyCurrent
      | none => pick l2
    let st2 : EnvState := { st with proxy := .list l2, proxyErrors := [] }
    match foundProxy with
    | none => ⟨.error "No proxy found", st2⟩
    | some p => ⟨.ok (some p), { st2 with proxyCurrent := some p }⟩

/-- Translation of `_validateProxy()`: resolve when the accumulated error
list is empty, otherwise reject with `getProxyErrors().pop()`, the most
recently recorded error. -/
def validateProxy (st : EnvState) : Except ProxyErr Unit :=
  if st.proxyErrors.length == 0 then .ok ()
  else
    match st.proxyErrors.getLast? with
    | some e => .error e
    | none => .ok ()

/-- State reset performed at the top of `goto(url)`:
`this._url = url; this._proxyErrors = []; this._redirectUrls = [];`. -/
def gotoReset (st : EnvState) (url : String) : EnvState :=
  { st with url := url, proxyErrors := [], redirectUrls := [] }


/-! Navigation retry loop (`_navigateTo` / `_openPage`). -/

/-- Outcome of `_navigateTo`: the promise resolves (`loaded`) or rejects with
an error message (`failed`).  `fuelOut` is an artifact of the fuel-indexed
translation of the recursion; the termination theorems show it is never
reached with enough fuel. -/
inductive NavOutcome
  | loaded
  | failed (msg : String)
  | fuelOut
deriving DecidableEq, Repr

/-- Result of a navigation: outcome, number of `page.open` attempts
performed, and the session state afterwards. -/
structure NavResult where
  outcome : NavOutcome
  attempts : Nat
  state : EnvState
deriving Repr

/-- Translation of the recursive `_openPage(url, ...)`.  The engine's answer
to the i-th `page.open` call is `statuses i` (`true` models the string
`"success"`).  On a non-success status the code rotates the proxy: a thrown
rotation error is caught and rejected as-is, a `null` proxy rejects with
`Page <url> was not loaded`, and a fresh proxy triggers one more attempt. -/
def openPage (pick : List Proxy → Option Proxy)
    (rotator : Option (List Proxy → Option Proxy → Option Proxy))
    (statuses : Nat → Bool) (url : String) :
    Nat → Nat → EnvState → NavResult
  | _, 0, st => ⟨.fuelOut, 0, st⟩
  | k, fuel + 1, st =>
    if statuses k then ⟨.loaded, 1, st⟩
    else
      let r := rotateProxy pick rotator st
      match r.outcome with
      | .error msg => ⟨.failed msg, 1, r.state⟩
      | .ok none => ⟨.failed ("Page " ++ url ++ " was not loaded"), 1, r.state⟩
      | .ok (some _) =>
        let rest := openPage pick rotator statuses url (k + 1) fuel r.state
        ⟨rest.outcome, rest.attempts + 1, rest.state⟩

/-! URL pattern matching.  JS `url.match(pattern)` interprets `pattern` as a
regular expression; the theorems are parameterized over an arbitrary match
function, and the concrete instantiation below (plain substring containment)
agrees with the JS behaviour on patterns without effective metacharacters,
such as the host names in the spec's examples. -/

/-- Containment of `pat` at the head of `s`, on character lists. -/
def leadMatch : List Char → List Char → Bool
  | _, [] => true
  | [], _ :: _ => false
  | a :: s, b :: pat => a == b && leadMatch s pat

/-- Containment of `pat` anywhere in `s`, on character lists. -/
def containsSub : List Char → List Char → Bool
  | [], pat => pat.isEmpty
  | a :: s, pat => leadMatch (a :: s) pat || containsSub s pat

/-- Concrete URL/pattern match used for concrete examples: substring
containment. -/
def urlMatch (url pat : String) : Bool :=
  containsSub url.toList pat.toList

/-! Event dispatch (`_handlePhantomEvents`). -/

/-- A pending request waiter of the part_001 variant: the entry pushed by
`waitForQuery` carries a URL pattern; the callback itself is represented by
an opaque identifier. -/
structure RequestAction where
  pattern : String
  id : Nat
deriving DecidableEq, Repr

/-- Translation of the `while` loop in the part_001 `onNavigationRequested`
handler.  The loop keeps an index `i` into the mutable `actions` array; on a
match it calls `actions.shift()` (removing the array's first element, not
the matched one) and fires the matched action without advancing `i`,
otherwise it increments `i`.  Each iteration strictly decreases
`actions.length - i`, so running the loop with `fuel = actions.length`
reproduces it exactly: when the fuel hits zero the measure is zero, i.e.
`i ≥ actions.length`, and the real loop would exit too.  Returns the queue
left in `this._requestingActions` and the actions fired, in firing order. -/
def navRequestedLoop (m : String → String → Bool) (url : String) :
    Nat → Nat → List RequestAction → List RequestAction × List RequestAction
  | 0, _, actions => (actions, [])
  | fuel + 1, i, actions =>
    if h : i < actions.length then
      let action := actions.get ⟨i, h⟩
      if m url action.pattern then
        match navRequestedLoop m url fuel i actions.tail with
        | (q, fired) => (q, action :: fired)
      else
        navRequestedLoop m url fuel (i + 1) actions
    else (actions, [])

/-- The part_001 `onNavigationRequested(url)` handler, acting on the pending
request-waiter queue. -/
def onNavigationRequested (m : String → String → Bool) (url : String)
    (actions : List RequestAction) : List RequestAction × List RequestAction :=
  navRequestedLoop m url actions.length 0 actions

/-- The part_001 `onLoadFinished(status)` handler:
`this._navigationActions.splice(0)` empties the queue and every callback is
invoked, in registration order, with `null` on `"success"` and with
`Error('Page is not loaded')` otherwise.  The result pairs each waiter with
the argument it received, and gives the queue left afterwards. -/
def onLoadFinishedCallbacks (status : String) (navigationActions : List Nat) :
    List (Nat × Option String) × List Nat :=
  (navigationActions.map
      (fun callback => (callback, if status == "success" then none else some "Page is not loaded")),
    [])

/-- The error the `src/lib` `onLoadFinished(status)` handler puts into
`args` before calling `this.evaluateCallbacks('navigation', null, args)`:
the source reads `if (status === 'success') { args.error = new Error('Page is not loaded'); }`. -/
def loadFinishedArgsError (status : String) : Option String :=
  if status == "success" then some "Page is not loaded" else none

/-- Modelled from the spec: `evaluateCallbacks` lives in the external
`goose-abstract-environment` package, which is not part of this repository's
sources.  Per the spec's load-finished contract it fans the result out to
every pending navigation waiter in FIFO order — failing each with the given
error when one is present — and then clears the waiter queue. -/
def evaluateCallbacksNavigation (err : Option String) (waiters : List Nat) :
    List (Nat × Option String) × List Nat :=
  (waiters.map (fun callback => (callback, err)), [])

/-- The `src/lib` `onLoadFinished(status)` handler: build `args` and fan out
through `evaluateCallbacks`. -/
def onLoadFinishedLib (status : String) (waiters : List Nat) :
    List (Nat × Option String) × List Nat :=
  evaluateCallbacksNavigation (loadFinishedArgsError status) waiters

/-- Translation of the `onResourceRequested` filter: a request is aborted
exactly when `!allowed || blocked`, with `allowed` and `blocked` computed
from the configured allow and deny pattern lists (`null` becomes `none`). -/
def resourceAborted (m : String → String → Bool) (url : String)
    (allowedUrls blockedUrls : Option (List String)) : Bool :=
  let hasAllowedUrls := match allowedUrls with
    | some l => decide (0 < l.length)
    | none => false
  let hasBlockedUrls := match blockedUrls with
    | some l => decide (0 < l.length)
    | none => false
  let allowed := !hasAllowedUrls
    || (allowedUrls.getD []).any (fun urlPattern => m url urlPattern)
  let blocked :=
    if !hasAllowedUrls && hasBlockedUrls then
      (blockedUrls.getD []).any (fun urlPattern => m url urlPattern)
    else false
  !allowed || blocked

/-! Redirect tracking (`onResourceReceived`). -/

/-- One response header. -/
structure Header where
  name : String
  value : String
deriving DecidableEq, Repr

/-- A received resource, with the fields `onResourceReceived` and
`extractRedirectUrl` read. -/
structure Resource where
  status : Nat
  url : String
  redirectUrl : Option String
  headers : List Header
deriving DecidableEq, Repr

/-- Translation of the `location` header scan inside `extractRedirectUrl`. -/
def locationHeaderValue (headers : List Header) : Option String :=
  match headers.find? (fun header => !header.name.isEmpty && header.name.toLower == "location") with
  | some header => if header.value.isEmpty then none else some header.value
  | none => none

/-- Translation of `extractRedirectUrl(resource)`.  `resolver` stands for
`getRedirectUrl(currentUrl, redirectUri)`, which resolves a possibly
relative redirect URI against the resource URL via the external `url.parse`
library; its exact parsing behaviour is abstracted. -/
def extractRedirectUrl (resolver : String → String → String) (r : Resource) : String :=
  let redirectUrl : Option String :=
    match r.redirectUrl with
    | some s => if s.isEmpty then locationHeaderValue r.headers else some s
    | none => locationHeaderValue r.headers
  match redirectUrl with
  | some s => resolver r.url s
  | none => ""

/-- Indicator-matching tail of the `onResourceReceived` handler: find the
first configured redirect indicator whose pattern the extracted target
matches and append the resulting proxy error.  The filter in
`getProxyIndicators` guarantees a supported indicator type, so the thrown
`Unsupported proxyIndicator` branch of `createProxyError` is unreachable
and modelled as a no-op. -/
def applyRedirectIndicators (m : String → String → Bool) (inds : List ProxyIndicator)
    (redirectUrl : String) (st : EnvState) : EnvState :=
  match (getProxyIndicators inds "redirect").find? (fun item => m redirectUrl item.url) with
  | some matched =>
    match createProxyError matched with
    | .ok e => { st with proxyErrors := st.proxyErrors ++ [e] }
    | .error _ => st
  | none => st

/-- Translation of the `onResourceReceived(resource)` handler: on a 301/302
status, append the extracted target to `this._redirectUrls` when the
redirect's source matches `this._url` or the chain's current tail, and
independently run the target through the configured redirect indicators. -/
def onResourceReceived (resolver : String → String → String)
    (m : String → String → Bool) (inds : List ProxyIndicator)
    (st : EnvState) (r : Resource) : EnvState :=
  if r.status == 302 || r.status == 301 then
    applyRedirectIndicators m inds (extractRedirectUrl resolver r)
      (if !(extractRedirectUrl resolver r).isEmpty
          && (r.url == st.url || st.redirectUrls.getLast? == some r.url) then
        { st with redirectUrls := st.redirectUrls ++ [extractRedirectUrl resolver r] }
      else st)
  else st

/-- Translation of `hasRedirect(urlPattern)`: with no pattern, report a
non-empty redirect chain; with a pattern, report whether some recorded URL
matches it. -/
def hasRedirect (m : String → String → Bool) (st : EnvState)
    (urlPattern : Option String) : Bool :=
  match urlPattern with
  | none => decide (0 < st.redirectUrls.length)
  | some pat => st.redirectUrls.any (fun url => m url pat)

/-- Statement, in the spec's words, of when a request is allowed: no
allow-list is configured (absent or empty) or the URL matches some
allow-list pattern. -/
def specAllowed (m : String → String → Bool) (url : String)
    (A : Option (List String)) : Prop :=
  (A = none ∨ A = some []) ∨ ∃ l, A = some l ∧ ∃ pat ∈ l, m url pat = true

/-- Statement, in the spec's words, of when a request is blocked: no
allow-list is configured, a non-empty deny-list exists, and the URL matches
some deny-list pattern. -/
def specBlocked (m : String → String → Bool) (url : String)
    (A D : Option (List String)) : Prop :=
  (A = none ∨ A = some []) ∧ ∃ l, D = some l ∧ l ≠ [] ∧ ∃ pat ∈ l, m url pat = true

/-- Existence, among the received resources, of a 301/302 response from
`src` whose extracted redirect target is `tgt`. -/
def redirectEdge (resolver : String → String → String) (events : List Resource)
    (src tgt : String) : Prop :=
  ∃ r ∈ events, (r.status = 301 ∨ r.status = 302) ∧ r.url = src ∧
    extractRedirectUrl resolver r = tgt ∧ tgt ≠ ""

/-- Reachability from `u` through a contiguous chain of 301/302 responses
among the received resources. -/
inductive ReachableByRedirects (resolver : String → String → String)
    (events : List Resource) (u : String) : String → Prop
  | base (t : String) : redirectEdge resolver events u t →
      ReachableByRedirects resolver events u t
  | step (v t : String) : ReachableByRedirects resolver events u v →
      redirectEdge resolver events v t → ReachableByRedirects resolver events u t

/-! Concrete instantiation data used by witnesses and counterexamples. -/

/-- Concrete stand-in for `lodash.sample` in witnesses: picks the first
candidate, which satisfies the two soundness properties every admissible
pick function has. -/
def pickFirst (l : List Proxy) : Option Proxy := l.head?


/-- Concrete proxy used in witnesses. -/
def pW1 : Proxy := ⟨"proxy-one.example", 3128, none, none⟩

/-- Second concrete proxy used in witnesses. -/
def pW2 : Proxy := ⟨"proxy-two.example", 8080, none, none⟩

/-- Concrete accumulated proxy error used in witnesses. -/
def errW : ProxyErr := ⟨"Proxy matched redirect", "redirect", "medium"⟩

/-! Supporting lemmas. -/

section RemoveUnavailable

/-- Unfolding lemma: the early empty-list exit of `_removeUnavailableProxy`
coincides with the not-found branch. -/
theorem removeUnavailable_some (l : List Proxy) (c : Proxy) :
    removeUnavailableProxy l (some c)
      = match List.findIdx? (fun item => sameKey item c) l with
        | some index => l.eraseIdx index
        | none => l := by
  cases l with
  | nil => rfl
  | cons a t => rfl

/-- Splicing at the index found by `findIdx?` is exactly `List.eraseP`:
removal of the first entry satisfying the predicate. -/
theorem removeUnavailableProxy_eq_eraseP (l : List Proxy) (c : Proxy) :
    removeUnavailableProxy l (some c) = l.eraseP (fun item => sameKey item c) := by
  induction l with
  | nil => rfl
  | cons a l ih =>
    rw [removeUnavailable_some]
    by_cases h : sameKey a c
    · simp only [List.findIdx?_cons, h, if_true, List.eraseIdx_cons_zero]
      rw [List.eraseP_cons_of_pos (p := fun item => sameKey item c) (by simpa using h)]
    · simp only [List.findIdx?_cons, h, Bool.false_eq_true, if_false, List.findIdx?_succ]
      rw [List.eraseP_cons_of_neg (p := fun item => sameKey item c) (by simpa using h)]
      rw [removeUnavailable_some] at ih
      cases hl : List.findIdx? (fun item => sameKey item c) l with
      | none =>
        simp only [hl, Option.map_none']
        simp only [hl] at ih
        rw [← ih]
      | some i =>
        simp only [hl, Option.map_some', List.eraseIdx_cons_succ, List.cons.injEq, true_and]
        simp only [hl] at ih
        rw [← ih]

/-- With pairwise distinct `(host, port)` keys, no entry remaining after the
eviction still carries the key of the evicted proxy. -/
theorem sameKey_eq_false_of_mem_removeUnavailable (l : List Proxy) (c p : Proxy)
    (hnd : (l.map proxyKey).Nodup)
    (hp : p ∈ removeUnavailableProxy l (some c)) : sameKey p c = false := by
  rw [removeUnavailableProxy_eq_eraseP] at hp
  induction l with
  | nil => simp at hp
  | cons a l ih =>
    simp only [List.map_cons, List.nodup_cons] at hnd
    by_cases h : sameKey a c
    · rw [List.eraseP_cons_of_pos (p := fun item => sameKey item c) (by simpa using h)] at hp
      by_contra hmem
      simp only [Bool.not_eq_false] at hmem
      have hkey : proxyKey p = proxyKey a := by
        simp only [sameKey, Bool.and_eq_true, beq_iff_eq] at h hmem
        simp [proxyKey, h.1, h.2, hmem.1, hmem.2]
      exact hnd.1 (hkey ▸ List.mem_map_of_mem proxyKey hp)
    · rw [List.eraseP_cons_of_neg (p := fun item => sameKey item c) (by simpa using h)] at hp
      rcases List.mem_cons.mp hp with rfl | hp
      · simpa using h
      · exact ih hnd.2 hp

/-- Evicting a proxy whose key occurs in the list shortens it by one. -/
theorem length_removeUnavailable (l : List Proxy) (c : Proxy)
    (hmem : l.any (fun p => sameKey p c) = true) :
    (removeUnavailableProxy l (some c)).length + 1 = l.length := by
  rw [removeUnavailableProxy_eq_eraseP]
  rcases List.any_eq_true.mp hmem with ⟨x, hx, hpx⟩
  rw [List.length_eraseP_of_mem hx hpx]
  have : 1 ≤ l.length := List.length_pos.mpr (List.ne_nil_of_mem hx)
  omega

/-- The evicted list is a sublist of the original one. -/
theorem removeUnavailable_sublist (l : List Proxy) (cur : Option Proxy) :
    List.Sublist (removeUnavailableProxy l cur) l := by
  cases cur with
  | none => exact List.Sublist.refl l
  | some c => rw [removeUnavailableProxy_eq_eraseP]; exact List.eraseP_sublist l

/-- Key-nodup is preserved by the eviction. -/
theorem nodup_removeUnavailable (l : List Proxy) (cur : Option Proxy)
    (hnd : (l.map proxyKey).Nodup) :
    ((removeUnavailableProxy l cur).map proxyKey).Nodup :=
  List.Nodup.sublist (List.Sublist.map proxyKey (removeUnavailable_sublist l cur)) hnd

end RemoveUnavailable

theorem pickFirst_mem (xs : List Proxy) (p : Proxy) (h : pickFirst xs = some p) : p ∈ xs := by
  cases xs with
  | nil => simp [pickFirst] at h
  | cons a t =>
    simp only [pickFirst, List.head?_cons, Option.some.injEq] at h
    exact h ▸ List.mem_cons_self a t

theorem pickFirst_none (xs : List Proxy) (h : pickFirst xs = none) : xs = [] := by
  cases xs with
  | nil => rfl
  | cons a t => simp [pickFirst] at h

/-! Claim theorems. -/

/-- C1: the two variants of the load-finished handler disagree, and the
`src/lib` one inverts the claimed behaviour.  With pending waiters `[0, 1]`,
the `src/lib` handler fails every waiter with `Page is not loaded` exactly
when the status IS `"success"` and resolves them all when it is not, while
the part_001 handler does the opposite — matching the claim (failure
delivered exactly on a non-success status, all waiters served in FIFO
order, queue cleared). -/
theorem loadFinished_status_inverted :
    onLoadFinishedLib "success" [0, 1]
        = ([(0, some "Page is not loaded"), (1, some "Page is not loaded")], []) ∧
    onLoadFinishedLib "fail" [0, 1] = ([(0, none), (1, none)], []) ∧
    onLoadFinishedCallbacks "success" [0, 1] = ([(0, none), (1, none)], []) ∧
    onLoadFinishedCallbacks "fail" [0, 1]
        = ([(0, some "Page is not loaded"), (1, some "Page is not loaded")], []) :=
  ⟨rfl, rfl, rfl, rfl⟩

/-- C4: evidence that the navigation-requested dispatch does not do what
the claim says.  With queue `[(pattern "z"), (pattern "b")]` and URL `"ab"`
(matching only `"b"`), the non-matching waiter is removed from the queue
while the matched-and-fired waiter stays queued — because the loop calls
`actions.shift()`, which removes the array head rather than the matched
entry.  With queue `[(pattern "b"), (pattern "b")]` both waiters fire on a
single event, contradicting at-most-one-per-event. -/
theorem navigationRequested_shift_bug :
    onNavigationRequested urlMatch "ab" [⟨"z", 0⟩, ⟨"b", 1⟩] = ([⟨"b", 1⟩], [⟨"b", 1⟩]) ∧
    onNavigationRequested urlMatch "ab" [⟨"b", 1⟩, ⟨"b", 2⟩] = ([], [⟨"b", 1⟩, ⟨"b", 2⟩]) ∧
    ([⟨"b", 1⟩] : List RequestAction) ≠ [⟨"z", 0⟩] ∧
    ([⟨"b", 1⟩, ⟨"b", 2⟩] : List RequestAction).length ≠ 1 :=
  ⟨by decide, by decide, by decide, by decide⟩

/-- C5: the resource filter aborts exactly the requests that are not
allowed or are blocked, with the allow-list strictly dominating the
deny-list; includes the spec's three concrete examples. -/
theorem resourceFilter_spec :
    (∀ (m : String → String → Bool) (url : String) (A D : Option (List String)),
      resourceAborted m url A D = true ↔ (¬ specAllowed m url A ∨ specBlocked m url A D)) ∧
    resourceAborted urlMatch "http://b.com/" (some ["a.com"]) none = true ∧
    resourceAborted urlMatch "http://ads.com/x" none (some ["ads.com"]) = true ∧
    resourceAborted urlMatch "http://shop.com/" none (some ["ads.com"]) = false := by
  refine ⟨?_, by decide, by decide, by decide⟩
  intro m url A D
  cases A with
  | none =>
    cases D with
    | none => simp [resourceAborted, specAllowed, specBlocked]
    | some dl =>
      cases dl with
      | nil => simp [resourceAborted, specAllowed, specBlocked]
      | cons d ds =>
        simp [resourceAborted, specAllowed, specBlocked, List.any_eq_true]
  | some al =>
    cases al with
    | nil =>
      cases D with
      | none => simp [resourceAborted, specAllowed, specBlocked]
      | some dl =>
        cases dl with
        | nil => simp [resourceAborted, specAllowed, specBlocked]
        | cons d ds =>
          simp [resourceAborted, specAllowed, specBlocked, List.any_eq_true]
    | cons a as =>
      simp [resourceAborted, specAllowed, specBlocked, List.any_eq_true]

/-- C5 witness: the filter semantics at the spec's first example, obtained
by running the characterization theorem at that input. -/
theorem resourceFilter_spec_witness :
    ¬ specAllowed urlMatch "http://b.com/" (some ["a.com"])
      ∨ specBlocked urlMatch "http://b.com/" (some ["a.com"]) none :=
  (resourceFilter_spec.1 urlMatch "http://b.com/" (some ["a.com"]) none).mp
    resourceFilter_spec.2.1

/-- C7: `_validateProxy` succeeds exactly when the accumulated proxy-error
list is empty, and otherwise fails with the last-recorded error. -/
theorem validateProxy_spec (st : EnvState) :
    (validateProxy st = .ok () ↔ st.proxyErrors = []) ∧
    (∀ e, st.proxyErrors.getLast? = some e → validateProxy st = .error e) := by
  have hlast : ∀ e, st.proxyErrors.getLast? = some e → validateProxy st = .error e := by
    intro e he
    have hne : st.proxyErrors ≠ [] := by
      intro h
      rw [h] at he
      simp at he
    unfold validateProxy
    rw [if_neg (by simpa using hne), he]
  refine ⟨⟨?_, ?_⟩, hlast⟩
  · intro h
    by_contra hne
    obtain ⟨e, he⟩ := Option.isSome_iff_exists.mp (List.getLast?_isSome.mpr hne)
    rw [hlast e he] at h
    exact Except.noConfusion h
  · intro h
    unfold validateProxy
    rw [if_pos (by simp [h])]

/-- C7 witness: with two accumulated errors the second (most recent) one is
the error surfaced, obtained from the characterization theorem. -/
theorem validateProxy_spec_witness :
    validateProxy ⟨"u", .noProxy, none,
        [⟨"Proxy matched response code", "responseCode", "medium"⟩, errW], []⟩ = .error errW :=
  (validateProxy_spec _).2 errW rfl

/-- C9: counterexample to "the error list is cleared only on successful
rotation".  Rotating over an exhausted (empty) proxy list fails with
`No proxy found`, yet the accumulated proxy-error list — non-empty before
the call — is cleared all the same, because the source resets
`this._proxyErrors` before testing whether a replacement proxy was found. -/
theorem rotateProxy_failed_rotation_clears_errors :
    (⟨"u", .list [], none, [errW], []⟩ : EnvState).proxyErrors ≠ [] ∧
    (rotateProxy pickFirst none ⟨"u", .list [], none, [errW], []⟩).outcome
      = .error "No proxy found" ∧
    (rotateProxy pickFirst none ⟨"u", .list [], none, [errW], []⟩).state.proxyErrors = [] :=
  ⟨by decide, rfl, rfl⟩

/-- C9 (amended): rotation over a proxy list always clears the proxy-error
list once it reaches the selection step — on success and on the
`No proxy found` failure alike — while rotation with a single configured
proxy or with no proxy configured leaves the list unchanged. -/
theorem rotateProxy_error_clearing (pick : List Proxy → Option Proxy)
    (rotator : Option (List Proxy → Option Proxy → Option Proxy)) :
    (∀ (st : EnvState) (l : List Proxy), st.proxy = .list l →
      (rotateProxy pick rotator st).state.proxyErrors = []) ∧
    (∀ (st : EnvState) (p : Proxy), st.proxy = .single p →
      (rotateProxy pick rotator st).state.proxyErrors = st.proxyErrors) ∧
    (∀ st : EnvState, st.proxy = .noProxy → (rotateProxy pick rotator st).state = st) := by
  refine ⟨?_, ?_, ?_⟩
  · intro st l hl
    unfold rotateProxy
    rw [hl]
    cases hrot : rotator with
    | none =>
      cases hp : pick (removeUnavailableProxy l st.proxyCurrent) <;> simp [hrot, hp]
    | some f =>
      cases hp : f (removeUnavailableProxy l st.proxyCurrent) st.proxyCurrent <;>
        simp [hrot, hp]
  · intro st p hp
    unfold rotateProxy
    rw [hp]
  · intro st h
    unfold rotateProxy
    rw [h]

/-- C9 witness: a successful rotation over a list clears a previously
non-empty error list, obtained from the clearing theorem. -/
theorem rotateProxy_error_clearing_witness :
    (rotateProxy pickFirst none ⟨"u", .list [pW1, pW2], some pW1, [errW], []⟩).state.proxyErrors
      = [] :=
  (rotateProxy_error_clearing pickFirst none).1 _ [pW1, pW2] rfl

/-- C10: `hasRedirect()` reports a non-empty redirect chain, and
`hasRedirect(pattern)` reports that some recorded redirect URL matches the
pattern; the embedding is a pure read of the session state. -/
theorem hasRedirect_spec (m : String → String → Bool) (st : EnvState) :
    (hasRedirect m st none = true ↔ st.redirectUrls ≠ []) ∧
    (∀ pat, hasRedirect m st (some pat) = true ↔
      ∃ u ∈ st.redirectUrls, m u pat = true) := by
  constructor
  · simp [hasRedirect, List.length_pos]
  · intro pat
    simp [hasRedirect, List.any_eq_true]

/-- C10 witness: a one-element chain makes the no-argument call true,
obtained from the characterization theorem. -/
theorem hasRedirect_spec_witness :
    hasRedirect urlMatch ⟨"u", .noProxy, none, [], ["http://a/b"]⟩ none = true :=
  (hasRedirect_spec urlMatch _).1.mpr (by decide)

/-- C2: rotating a pool configured as a list, without a custom rotation
function, first evicts the current proxy (matched by host and port) from
the candidate list; any proxy the rotation then resolves with is drawn from
the remaining candidates and — keys being pairwise distinct — never carries
the evicted proxy's host and port; and when the candidate list has become
empty the rotation fails with `No proxy found`.  The function `pick`
abstracts `lodash.sample`: the theorem holds for every function that
returns `none` exactly on the empty list and otherwise some member (the
uniform distribution itself is not expressible here). -/
theorem rotateProxy_list_none (pick : List Proxy → Option Proxy)
    (u : String) (l : List Proxy) (cur : Option Proxy)
    (errs : List ProxyErr) (ru : List String) :
    rotateProxy pick none ⟨u, .list l, cur, errs, ru⟩
      = match pick (removeUnavailableProxy l cur) with
        | none =>
          ⟨.error "No proxy found", ⟨u, .list (removeUnavailableProxy l cur), cur, [], ru⟩⟩
        | some p =>
          ⟨.ok (some p), ⟨u, .list (removeUnavailableProxy l cur), some p, [], ru⟩⟩ := by
  cases hp : pick (removeUnavailableProxy l cur) <;> simp [rotateProxy, hp]

theorem rotateProxy_list_evicts_current (pick : List Proxy → Option Proxy)
    (hsome : ∀ xs p, pick xs = some p → p ∈ xs)
    (l : List Proxy) (c : Proxy) (st : EnvState)
    (hl : st.proxy = .list l) (hc : st.proxyCurrent = some c)
    (hnd : (l.map proxyKey).Nodup) :
    (rotateProxy pick none st).state.proxy = .list (removeUnavailableProxy l (some c)) ∧
    (∀ p, (rotateProxy pick none st).outcome = .ok (some p) →
      p ∈ removeUnavailableProxy l (some c) ∧ sameKey p c = false) ∧
    (removeUnavailableProxy l (some c) = [] →
      (rotateProxy pick none st).outcome = .error "No proxy found") := by
  obtain ⟨u, pr, cur, errs, ru⟩ := st
  have hl2 : pr = .list l := hl
  have hc2 : cur = some c := hc
  subst hl2
  subst hc2
  rw [rotateProxy_list_none]
  cases hp : pick (removeUnavailableProxy l (some c)) with
  | none =>
    refine ⟨rfl, ?_, fun _ => rfl⟩
    intro p h
    exact Except.noConfusion h
  | some p =>
    refine ⟨rfl, ?_, ?_⟩
    · intro q hq
      simp only [Except.ok.injEq, Option.some.injEq] at hq
      rw [← hq]
      have hmem := hsome _ _ hp
      exact ⟨hmem, sameKey_eq_false_of_mem_removeUnavailable l c p hnd hmem⟩
    · intro he
      rw [he] at hp
      exact absurd (hsome _ _ hp) (by simp)

/-- C2 witness: with pool `[pW1, pW2]` and current proxy `pW1`, the rotation
result is a remaining candidate with a different host and port, obtained
from the eviction theorem at the head-picking sample function. -/
theorem rotateProxy_list_evicts_current_witness :
    pW2 ∈ removeUnavailableProxy [pW1, pW2] (some pW1) ∧ sameKey pW2 pW1 = false :=
  (rotateProxy_list_evicts_current pickFirst pickFirst_mem [pW1, pW2] pW1
      ⟨"u", .list [pW1, pW2], some pW1, [], []⟩ rfl rfl (by decide)).2.1 pW2 rfl

/-- Behaviour of a full `_openPage` run over a list-configured pool without
a custom rotator, when the current proxy occurs in the candidate list (by
host and port) and keys are pairwise distinct: at most `l.length` attempts
are made, the fuel bound `l.length` is never exhausted, and if every
attempt fails the run ends in the `No proxy found` rejection thrown by the
rotation. -/
theorem openPage_list_run (pick : List Proxy → Option Proxy)
    (hsome : ∀ xs p, pick xs = some p → p ∈ xs)
    (statuses : Nat → Bool) (url : String) :
    ∀ (fuel k : Nat) (l : List Proxy) (c : Proxy) (u : String)
      (errs : List ProxyErr) (ru : List String),
      (l.map proxyKey).Nodup → l.any (fun p => sameKey p c) = true →
      l.length ≤ fuel →
      (openPage pick none statuses url k fuel ⟨u, .list l, some c, errs, ru⟩).attempts
          ≤ l.length ∧
      (openPage pick none statuses url k fuel ⟨u, .list l, some c, errs, ru⟩).outcome
          ≠ .fuelOut ∧
      ((∀ i, statuses i = false) →
        (openPage pick none statuses url k fuel ⟨u, .list l, some c, errs, ru⟩).outcome
          = .failed "No proxy found") := by
  intro fuel
  induction fuel with
  | zero =>
    intro k l c u errs ru hnd hmem hle
    have hnil : l = [] := List.length_eq_zero.mp (Nat.le_zero.mp hle)
    subst hnil
    simp at hmem
  | succ fuel ih =>
    intro k l c u errs ru hnd hmem hle
    have hlpos : l ≠ [] := by
      rcases List.any_eq_true.mp hmem with ⟨x, hx, _⟩
      exact List.ne_nil_of_mem hx
    have hone : 1 ≤ l.length := Nat.one_le_iff_ne_zero.mpr
      (fun h0 => hlpos (List.length_eq_zero.mp h0))
    by_cases hs : statuses k
    · have hbody : openPage pick none statuses url k (fuel + 1) ⟨u, .list l, some c, errs, ru⟩
          = ⟨.loaded, 1, ⟨u, .list l, some c, errs, ru⟩⟩ := by
        simp [openPage, hs]
      rw [hbody]
      refine ⟨hone, by simp, ?_⟩
      intro hall
      rw [hall k] at hs
      exact absurd hs (by simp)
    · have hrot := rotateProxy_list_none pick u l (some c) errs ru
      have hlen : (removeUnavailableProxy l (some c)).length + 1 = l.length :=
        length_removeUnavailable l c hmem
      cases hp : pick (removeUnavailableProxy l (some c)) with
      | none =>
        rw [hp] at hrot
        have hbody : openPage pick none statuses url k (fuel + 1) ⟨u, .list l, some c, errs, ru⟩
            = ⟨.failed "No proxy found", 1,
                ⟨u, .list (removeUnavailableProxy l (some c)), some c, [], ru⟩⟩ := by
          simp [openPage, hs, hrot]
        rw [hbody]
        exact ⟨hone, by simp, fun _ => rfl⟩
      | some p =>
        rw [hp] at hrot
        have hpmem : p ∈ removeUnavailableProxy l (some c) := hsome _ _ hp
        have hbody : openPage pick none statuses url k (fuel + 1) ⟨u, .list l, some c, errs, ru⟩
            = ⟨(openPage pick none statuses url (k + 1) fuel
                  ⟨u, .list (removeUnavailableProxy l (some c)), some p, [], ru⟩).outcome,
               (openPage pick none statuses url (k + 1) fuel
                  ⟨u, .list (removeUnavailableProxy l (some c)), some p, [], ru⟩).attempts + 1,
               (openPage pick none statuses url (k + 1) fuel
                  ⟨u, .list (removeUnavailableProxy l (some c)), some p, [], ru⟩).state⟩ := by
          simp [openPage, hs, hrot]
        have hnd2 : ((removeUnavailableProxy l (some c)).map proxyKey).Nodup :=
          nodup_removeUnavailable l (some c) hnd
        have hmem2 : (removeUnavailableProxy l (some c)).any (fun q => sameKey q p) = true :=
          List.any_eq_true.mpr ⟨p, hpmem, by simp [sameKey]⟩
        have hle2 : (removeUnavailableProxy l (some c)).length ≤ fuel := by omega
        have hih := ih (k + 1) (removeUnavailableProxy l (some c)) p u [] ru hnd2 hmem2 hle2
        rw [hbody]
        refine ⟨?_, ?_, ?_⟩
        · show (openPage pick none statuses url (k + 1) fuel
              ⟨u, .list (removeUnavailableProxy l (some c)), some p, [], ru⟩).attempts + 1
              ≤ l.length
          have h1 := hih.1
          omega
        · exact hih.2.1
        · intro hall
          exact hih.2.2 hall

/-- C3: a `goto` over a proxy list of `N` candidates performs at most `N`
navigation attempts and terminates: with fuel `N` the fuel-exhaustion
marker is unreachable, because every failed attempt evicts the current
proxy from the finite candidate list before retrying. -/
theorem goto_attempts_bounded (pick : List Proxy → Option Proxy)
    (hsome : ∀ xs p, pick xs = some p → p ∈ xs)
    (statuses : Nat → Bool) (url u : String) (l : List Proxy) (c : Proxy)
    (errs : List ProxyErr) (ru : List String) (fuel : Nat)
    (hnd : (l.map proxyKey).Nodup) (hmem : l.any (fun p => sameKey p c) = true)
    (hfuel : l.length ≤ fuel) :
    (openPage pick none statuses url 0 fuel ⟨u, .list l, some c, errs, ru⟩).attempts
        ≤ l.length ∧
    (openPage pick none statuses url 0 fuel ⟨u, .list l, some c, errs, ru⟩).outcome
        ≠ .fuelOut :=
  ⟨(openPage_list_run pick hsome statuses url fuel 0 l c u errs ru hnd hmem hfuel).1,
   (openPage_list_run pick hsome statuses url fuel 0 l c u errs ru hnd hmem hfuel).2.1⟩

/-- C3 witness: a pool of two distinct proxies with every attempt failing
makes at most two attempts and does not run out of fuel 2, obtained from
the bound theorem at the head-picking sample function. -/
theorem goto_attempts_bounded_witness :
    (openPage pickFirst none (fun _ => false) "http://w.example/" 0 2
        ⟨"http://w.example/", .list [pW1, pW2], some pW1, [], []⟩).attempts
        ≤ ([pW1, pW2] : List Proxy).length ∧
    (openPage pickFirst none (fun _ => false) "http://w.example/" 0 2
        ⟨"http://w.example/", .list [pW1, pW2], some pW1, [], []⟩).outcome
        ≠ .fuelOut :=
  goto_attempts_bounded pickFirst pickFirst_mem (fun _ => false) "http://w.example/"
    "http://w.example/" [pW1, pW2] pW1 [] [] 2 (by decide) (by decide) (by decide)

/-- C8 counterexample: exhausting a one-element proxy pool does not surface
the `Page <url> was not loaded` rejection — the `No proxy found` error
thrown by the rotation is what reaches the caller, caught and re-rejected
as-is by `_openPage`. -/
theorem exhaustion_error_not_pageLoadFailed :
    (openPage pickFirst none (fun _ => false) "http://example.com/" 0 1
        ⟨"http://example.com/", .list [pW1], some pW1, [], []⟩).outcome
      = .failed "No proxy found" ∧
    NavOutcome.failed "No proxy found"
      ≠ .failed ("Page " ++ "http://example.com/" ++ " was not loaded") :=
  ⟨by decide, by decide⟩

/-- C8 (amended): when a navigation attempt fails and the rotation yields
no replacement proxy — which happens exactly when no proxy is configured at
all — the whole `goto` fails with `Page <url> was not loaded`; when instead
a configured proxy list is exhausted, the rotation throws and the error
surfaced to the caller is `No proxy found`. -/
theorem goto_failure_surface (pick : List Proxy → Option Proxy)
    (hsome : ∀ xs p, pick xs = some p → p ∈ xs) :
    (∀ (rotator : Option (List Proxy → Option Proxy → Option Proxy))
        (statuses : Nat → Bool) (url u : String) (cur : Option Proxy)
        (errs : List ProxyErr) (ru : List String) (k fuel : Nat),
      statuses k = false →
      openPage pick rotator statuses url k (fuel + 1) ⟨u, .noProxy, cur, errs, ru⟩
        = ⟨.failed ("Page " ++ url ++ " was not loaded"), 1, ⟨u, .noProxy, cur, errs, ru⟩⟩) ∧
    (∀ (statuses : Nat → Bool) (url u : String) (l : List Proxy) (c : Proxy)
        (errs : List ProxyErr) (ru : List String) (fuel : Nat),
      (l.map proxyKey).Nodup → l.any (fun p => sameKey p c) = true →
      l.length ≤ fuel → (∀ i, statuses i = false) →
      (openPage pick none statuses url 0 fuel ⟨u, .list l, some c, errs, ru⟩).outcome
        = .failed "No proxy found") := by
  constructor
  · intro rotator statuses url u cur errs ru k fuel hs
    have hrot : rotateProxy pick rotator ⟨u, .noProxy, cur, errs, ru⟩
        = ⟨.ok none, ⟨u, .noProxy, cur, errs, ru⟩⟩ := rfl
    simp [openPage, hs, hrot]
  · intro statuses url u l c errs ru fuel hnd hmem hfuel hall
    exact (openPage_list_run pick hsome statuses url fuel 0 l c u errs ru hnd hmem hfuel).2.2 hall

/-- C8 witness: a two-proxy pool with every attempt failing surfaces the
`No proxy found` rotation error, obtained from the failure-surface theorem. -/
theorem goto_failure_surface_witness :
    (openPage pickFirst none (fun _ => false) "http://w2.example/" 0 2
        ⟨"http://w2.example/", .list [pW1, pW2], some pW1, [], []⟩).outcome
      = .failed "No proxy found" :=
  (goto_failure_surface pickFirst pickFirst_mem).2 (fun _ => false) "http://w2.example/"
    "http://w2.example/" [pW1, pW2] pW1 [] [] 2 (by decide) (by decide) (by decide)
    (fun _ => rfl)

/-- The indicator-matching tail of the received-resource handler touches
only the proxy-error list. -/
theorem applyRedirectIndicators_fields (m : String → String → Bool)
    (inds : List ProxyIndicator) (redirectUrl : String) (st : EnvState) :
    (applyRedirectIndicators m inds redirectUrl st).url = st.url ∧
    (applyRedirectIndicators m inds redirectUrl st).redirectUrls = st.redirectUrls := by
  unfold applyRedirectIndicators
  split
  · split
    · exact ⟨rfl, rfl⟩
    · exact ⟨rfl, rfl⟩
  · exact ⟨rfl, rfl⟩

/-- Characterization of one received-resource event: the session URL is
untouched, and the redirect chain either stays as it was or — on a 301/302
whose extracted target is non-empty and whose source URL is the session URL
or the chain's current tail — grows by exactly that target at the end. -/
theorem onResourceReceived_redirectUrls (resolver : String → String → String)
    (m : String → String → Bool) (inds : List ProxyIndicator)
    (st : EnvState) (r : Resource) :
    (onResourceReceived resolver m inds st r).url = st.url ∧
    ((onResourceReceived resolver m inds st r).redirectUrls = st.redirectUrls ∨
      ((r.status = 301 ∨ r.status = 302) ∧
        extractRedirectUrl resolver r ≠ "" ∧
        (r.url = st.url ∨ st.redirectUrls.getLast? = some r.url) ∧
        (onResourceReceived resolver m inds st r).redirectUrls
          = st.redirectUrls ++ [extractRedirectUrl resolver r])) := by
  unfold onResourceReceived
  by_cases hstat : (r.status == 302 || r.status == 301) = true
  · rw [if_pos hstat]
    have hstat2 : r.status = 301 ∨ r.status = 302 := by
      simp only [Bool.or_eq_true, beq_iff_eq] at hstat
      exact hstat.symm
    by_cases hg : (!(extractRedirectUrl resolver r).isEmpty
        && (r.url == st.url || st.redirectUrls.getLast? == some r.url)) = true
    · rw [if_pos hg]
      have hne2 : extractRedirectUrl resolver r ≠ "" := by
        intro h0
        rw [h0] at hg
        simp at hg
        exact absurd hg.1 (by decide)
      have hsrc2 : r.url = st.url ∨ st.redirectUrls.getLast? = some r.url := by
        have hg2 := hg
        simp only [Bool.and_eq_true, Bool.or_eq_true, beq_iff_eq] at hg2
        exact hg2.2
      have happ := applyRedirectIndicators_fields m inds (extractRedirectUrl resolver r)
        { st with redirectUrls := st.redirectUrls ++ [extractRedirectUrl resolver r] }
      exact ⟨happ.1, Or.inr ⟨hstat2, hne2, hsrc2, happ.2⟩⟩
    · rw [if_neg hg]
      have happ := applyRedirectIndicators_fields m inds (extractRedirectUrl resolver r) st
      exact ⟨happ.1, Or.inl happ.2⟩
  · rw [if_neg hstat]
    exact ⟨rfl, Or.inl rfl⟩

/-- One event preserves the chain invariant: the session URL stays `u` and
every chain entry is reachable from `u` through recorded 301/302 edges. -/
theorem chainInv_step (resolver : String → String → String)
    (m : String → String → Bool) (inds : List ProxyIndicator)
    (E : List Resource) (u : String) (st : EnvState) (r : Resource)
    (hr : r ∈ E) (hu : st.url = u)
    (hinv : ∀ v ∈ st.redirectUrls, ReachableByRedirects resolver E u v) :
    (onResourceReceived resolver m inds st r).url = u ∧
    ∀ v ∈ (onResourceReceived resolver m inds st r).redirectUrls,
      ReachableByRedirects resolver E u v := by
  obtain ⟨hurl, hch⟩ := onResourceReceived_redirectUrls resolver m inds st r
  refine ⟨hurl.trans hu, ?_⟩
  rcases hch with heq | ⟨hstat, hne, hsrc, happ⟩
  · rw [heq]
    exact hinv
  · rw [happ]
    intro v hv
    rcases List.mem_append.mp hv with hv | hv
    · exact hinv v hv
    · have hvt : v = extractRedirectUrl resolver r := by simpa using hv
      subst hvt
      rcases hsrc with hsrc | hsrc
      · exact .base _ ⟨r, hr, hstat, hsrc.trans hu, rfl, hne⟩
      · exact .step _ _ (hinv r.url (List.mem_of_getLast?_eq_some hsrc))
          ⟨r, hr, hstat, rfl, rfl, hne⟩

/-- The chain invariant is preserved by folding any sequence of
received-resource events. -/
theorem chainInv_fold (resolver : String → String → String)
    (m : String → String → Bool) (inds : List ProxyIndicator)
    (E : List Resource) (u : String) :
    ∀ (es : List Resource) (st : EnvState), (∀ e ∈ es, e ∈ E) → st.url = u →
      (∀ v ∈ st.redirectUrls, ReachableByRedirects resolver E u v) →
      (List.foldl (onResourceReceived resolver m inds) st es).url = u ∧
      ∀ v ∈ (List.foldl (onResourceReceived resolver m inds) st es).redirectUrls,
        ReachableByRedirects resolver E u v := by
  intro es
  induction es with
  | nil =>
    intro st _ hu hinv
    exact ⟨hu, hinv⟩
  | cons e es ih =>
    intro st hsub hu hinv
    have hstep := chainInv_step resolver m inds E u st e
      (hsub e (List.mem_cons_self e es)) hu hinv
    simpa [List.foldl_cons] using ih (onResourceReceived resolver m inds st e)
      (fun x hx => hsub x (List.mem_cons_of_mem e hx)) hstep.1 hstep.2

/-- C6: the redirect chain is append-only, a 301/302 target is appended
only when the redirect's source equals the navigated URL or the chain's
current tail, after a `goto(u)` reset the chain holds only URLs reachable
from `u` by a contiguous chain of 301/302 responses among the received
resources, and a fresh `goto` clears the chain. -/
theorem redirectChain_reachable (resolver : String → String → String)
    (m : String → String → Bool) (inds : List ProxyIndicator) :
    (∀ (st : EnvState) (r : Resource),
      (onResourceReceived resolver m inds st r).redirectUrls = st.redirectUrls ∨
      ((r.status = 301 ∨ r.status = 302) ∧
        extractRedirectUrl resolver r ≠ "" ∧
        (r.url = st.url ∨ st.redirectUrls.getLast? = some r.url) ∧
        (onResourceReceived resolver m inds st r).redirectUrls
          = st.redirectUrls ++ [extractRedirectUrl resolver r])) ∧
    (∀ (st0 : EnvState) (u : String) (events : List Resource) (v : String),
      v ∈ (List.foldl (onResourceReceived resolver m inds) (gotoReset st0 u)
            events).redirectUrls →
      ReachableByRedirects resolver events u v) ∧
    (∀ (st0 : EnvState) (u : String), (gotoReset st0 u).redirectUrls = []) := by
  refine ⟨?_, ?_, fun _ _ => rfl⟩
  · intro st r
    exact (onResourceReceived_redirectUrls resolver m inds st r).2
  · intro st0 u events v hv
    refine (chainInv_fold resolver m inds events u events (gotoReset st0 u)
      (fun e he => he) rfl ?_).2 v hv
    intro w hw
    simp [gotoReset] at hw

/-- C6 witness: after a reset to `http://a/` and a single 301 response from
`http://a/` with redirect target `http://b/`, the recorded chain entry
`http://b/` is reachable from `http://a/`, obtained from the chain theorem. -/
theorem redirectChain_reachable_witness :
    ReachableByRedirects (fun _ ru => ru)
      [⟨301, "http://a/", some "http://b/", []⟩] "http://a/" "http://b/" :=
  (redirectChain_reachable (fun _ ru => ru) (fun _ _ => false) []).2.1
    ⟨"x", .noProxy, none, [], ["stale"]⟩ "http://a/"
    [⟨301, "http://a/", some "http://b/", []⟩] "http://b/" (by decide)

end PhantomEnv
